import Mathlib

/-!
# Extrinsic calibration against an ArUco board

A shallow embedding of `src/src/camera.cpp`:

* `Read_ArUco_YAML`, the loader of the board configuration, with the
  reference parameters of the C++ function passed in and handed back, and
  the ways in which the call does not return made explicit: the exceptions
  of yaml-cpp for a file that cannot be opened or parsed and for a node that
  does not convert, `std::out_of_range`, and the undefined `std::iter_swap`;
* `eulerAnglesToRotationMatrix`;
* one pass through the body of the `while (running_)` loop of
  `Camera::extrinsicCalibration`, with the three state fields it shares with
  the setters and the getter.

Calls into OpenCV (marker detection, correspondence lookup, pose solving) are
parameters of the model.  `double` values are elements of a commutative ring
with `sin` and `cos` passed as functions, so every definition is executable
and the theorems instantiate them with the real functions.  Loop counters of
type `unsigned int` are natural numbers: vectors read from a YAML file are
taken to have fewer than `2 ^ 32` elements.
-/

namespace ArucoCalib

/-! ## Board configuration loader -/

/-- Ways in which a call of `Read_ArUco_YAML` does not return. -/
inductive Failure
  /-- The exception `YAML::BadFile` of `YAML::LoadFile`, for a file that
  cannot be opened. -/
  | BadFile
  /-- The exception `YAML::ParserException` of `YAML::LoadFile`, for a file
  whose text is not YAML. -/
  | ParserException
  /-- The exception `YAML::BadSubscript` of a lookup by key in a document
  that is a single scalar. -/
  | BadSubscript
  /-- The exception `YAML::BadConversion` of `Node::as`, for a node that does
  not read as a value of the type asked for. -/
  | BadConversion
  /-- The exception `std::out_of_range` of `std::vector::at`. -/
  | out_of_range
  /-- A call of `std::iter_swap` on an iterator at or beyond `end()`, for
  which C++ defines no behaviour. -/
  | undefined_behaviour
  deriving DecidableEq, Repr

/-- The type `cv::Point3f`, over the type `β` of `float` values. -/
structure Point3f (β : Type) where
  x : β
  y : β
  z : β
  deriving DecidableEq, Repr

/-- The dictionaries of `cv::aruco::getPredefinedDictionary` (the two of
marker size 4 that matter here). -/
inductive PredefinedDictionary
  | DICT_4X4_50
  | DICT_4X4_100
  deriving DecidableEq, Repr

/-- The node under the key `objPoints`, as the conversion to
`std::vector<std::vector<double>>` of line 63 sees it: a sequence of sequences
of scalars that read as `double`, or anything else.  `α` is the type of
`double` values. -/
inductive ObjPointsNode (α : Type)
  | lists (values : List (List α))
  | malformed

/-- The node under the key `ids`, as the conversion to `std::vector<int>` of
line 87 sees it: a sequence of integer scalars, with the integers as they are
written in the document, or anything else. -/
inductive IdsNode
  | integers (values : List Int)
  | malformed

/-- A document whose root has keys (a map; a null or sequence root becomes a
map without the two keys at the first lookup): the node under each of the two
keys, `none` when the key is not defined. -/
structure Config (α : Type) where
  objPoints : Option (ObjPointsNode α)
  ids : Option IdsNode

/-- The root of a parsed document: a single scalar, or a node with keys. -/
inductive Root (α : Type)
  | scalar
  | map (config : Config α)

/-- What `fileName` resolves to: a file that cannot be opened, a file whose
text is not YAML, or a file that parses to a document. -/
inductive File (α : Type)
  | missing
  | unparsable
  | parsed (root : Root α)

/-- The call `YAML::LoadFile(fileName)` of line 58. -/
def LoadFile {α : Type} (file : File α) : Except Failure (Root α) :=
  match file with
  | .missing => .error .BadFile
  | .unparsable => .error .ParserException
  | .parsed root => .ok root

/-- The lookups `config["objPoints"]` and `config["ids"]` on the document: a
scalar root raises at the first of them (line 61). -/
def lookupKeys {α : Type} (root : Root α) : Except Failure (Config α) :=
  match root with
  | .scalar => .error .BadSubscript
  | .map config => .ok config

/-- The conversion `as<std::vector<std::vector<double>>>()` of line 63. -/
def as_vector_vector_double {α : Type} (node : ObjPointsNode α) :
    Except Failure (List (List α)) :=
  match node with
  | .lists values => .ok values
  | .malformed => .error .BadConversion

/-- The test that an integer is a value of the type `int` (32 bits). -/
def fitsInt (n : Int) : Bool := decide (-2147483648 ≤ n) && decide (n ≤ 2147483647)

/-- The conversion `as<std::vector<int>>()` of line 87: it raises when the
node is not a sequence of integers or one of the integers does not fit the
type `int`. -/
def as_vector_int (node : IdsNode) : Except Failure (List Int) :=
  match node with
  | .integers values => if values.all fitsInt then .ok values else .error .BadConversion
  | .malformed => .error .BadConversion

/-- The bounds-checked access `v.at(i)` of `std::vector`. -/
def vec_at {γ : Type} (v : List γ) (i : Nat) : Except Failure γ :=
  match v[i]? with
  | some a => .ok a
  | none => .error .out_of_range

/-- The call `std::iter_swap(v.begin() + a, v.begin() + b)`. -/
def iter_swap {γ : Type} (v : List γ) (a b : Nat) : Except Failure (List γ) :=
  match v[a]?, v[b]? with
  | some p, some q => .ok ((v.set a q).set b p)
  | _, _ => .error .undefined_behaviour

/-- The body of the inner loop (lines 70 to 74) at index `j`: three checked
reads of `v` and one `push_back` on the marker.  `narrow` is the conversion
from `double` to `float` of the three assignments. -/
def pushPoint {α β : Type} (narrow : α → β) (v : List α) (marker : List (Point3f β)) (j : Nat) :
    Except Failure (List (Point3f β)) := do
  let x ← vec_at v j
  let y ← vec_at v (j + 1)
  let z ← vec_at v (j + 2)
  pure (marker ++ [Point3f.mk (narrow x) (narrow y) (narrow z)])

/-- The inner loop of lines 68 to 75: `j` runs over `0, 3, 6, ...` below
`v.size()`, starting from the empty marker. -/
def markerPoints {α β : Type} (narrow : α → β) (v : List α) :
    Except Failure (List (Point3f β)) :=
  (List.range' 0 ((v.length + 2) / 3) 3).foldlM (pushPoint narrow v) []

/-- The outer loop of lines 64 to 76: after `markerConers.resize`, marker `i`
is filled from `objPointss.at(i)`. -/
def markerConers {α β : Type} (narrow : α → β) (objPointss : List (List α)) :
    Except Failure (List (List (Point3f β))) :=
  objPointss.mapM fun v =>
    if !objPointss.isEmpty then markerPoints narrow v else pure []

/-- The body of the loop of lines 79 to 83 at index `i`. -/
def swapMarker {γ : Type} (objPoints : List (List γ)) (i : Nat) :
    Except Failure (List (List γ)) := do
  let marker ← vec_at objPoints i
  let marker ← iter_swap marker 0 1
  let marker ← iter_swap marker 2 3
  pure (objPoints.set i marker)

/-- The loop of lines 79 to 83 over `i = 28, 29, ...` below
`objPoints.size()`. -/
def swapCorners {γ : Type} (objPoints : List (List γ)) : Except Failure (List (List γ)) :=
  (List.range' 28 (objPoints.length - 28)).foldlM swapMarker objPoints

/-- What a call of `Read_ArUco_YAML` leaves behind: the value returned or the
failure raised, and the values of the three reference parameters. -/
structure Outcome (β : Type) where
  result : Except Failure Bool
  dictionary : Option PredefinedDictionary
  ids : List Int
  objPoints : List (List (Point3f β))

/-- Lines 86 and 87: the assignment of `ids` when the key is defined.  The
conversion raises before `ids` is assigned. -/
def readIds {α β : Type} (config : Config α) (o : Outcome β) : Outcome β :=
  match config.ids with
  | some node =>
    match as_vector_int node with
    | .error e => { o with result := .error e }
    | .ok values => { o with ids := values }
  | none => o

/-- Lines 61 to 84: the assignment of `objPoints` when the key is defined.
`dictionary`, `ids` and `objPoints` are the values of the reference parameters
when line 61 is reached.  When `std::iter_swap` has no defined behaviour the
outcome records the failure and the assignment of line 77. -/
def readObjPoints {α β : Type} (narrow : α → β) (config : Config α)
    (dictionary : Option PredefinedDictionary) (ids : List Int)
    (objPoints : List (List (Point3f β))) : Outcome β :=
  match config.objPoints with
  | some node =>
    match as_vector_vector_double node with
    | .error e => ⟨.error e, dictionary, ids, objPoints⟩
    | .ok objPointss =>
      match markerConers narrow objPointss with
      | .error e => ⟨.error e, dictionary, ids, objPoints⟩
      | .ok markers =>
        match swapCorners markers with
        | .error e => ⟨.error e, dictionary, ids, markers⟩
        | .ok swapped => ⟨.ok true, dictionary, ids, swapped⟩
  | none => ⟨.ok true, dictionary, ids, objPoints⟩

/-- The function `Camera::Read_ArUco_YAML`.  `file` is what `fileName`
resolves to; `ids` and `objPoints` are the values of the reference parameters
on entry (the value of `dictionary` on entry is never read). -/
def Read_ArUco_YAML {α β : Type} (narrow : α → β) (file : File α)
    (ids : List Int) (objPoints : List (List (Point3f β))) : Outcome β :=
  let dictionary := some PredefinedDictionary.DICT_4X4_100
  match LoadFile file >>= lookupKeys with
  | .error e => ⟨.error e, dictionary, ids, objPoints⟩
  | .ok config =>
    let afterObjPoints := readObjPoints narrow config dictionary ids objPoints
    match afterObjPoints.result with
    | .error _ => afterObjPoints
    | .ok _ => readIds config afterObjPoints

/-! ## Matrices, the rotation matrix, the shared state -/

/-- The type `cv::Mat`: a matrix whose shape is known at run time. -/
structure Mat (R : Type) where
  rows : Nat
  cols : Nat
  data : Matrix (Fin rows) (Fin cols) R

/-- The default constructor `cv::Mat()`. -/
def Mat.default {R : Type} : Mat R := ⟨0, 0, fun i _ => i.elim0⟩

/-- The test `cv::Mat::empty()`. -/
def Mat.empty {R : Type} (m : Mat R) : Bool := m.rows == 0 || m.cols == 0

/-- A matrix of statically known shape as a `cv::Mat`. -/
def Mat.of {R : Type} {m n : Nat} (M : Matrix (Fin m) (Fin n) R) : Mat R := ⟨m, n, M⟩

/-- The type `cv::Vec3d`; its default constructor fills it with zeros. -/
abbrev Vec3d (R : Type) := Fin 3 → R

/-- The function `eulerAnglesToRotationMatrix` of lines 3 to 27, with the
three matrices written row by row as in the source. -/
def eulerAnglesToRotationMatrix {R : Type} [CommRing R] (sin cos : R → R) (theta : Vec3d R) :
    Matrix (Fin 3) (Fin 3) R :=
  let R_x : Matrix (Fin 3) (Fin 3) R :=
    !![1, 0,             0;
       0, cos (theta 0), -sin (theta 0);
       0, sin (theta 0), cos (theta 0)]
  let R_y : Matrix (Fin 3) (Fin 3) R :=
    !![cos (theta 1),  0, sin (theta 1);
       0,              1, 0;
       -sin (theta 1), 0, cos (theta 1)]
  let R_z : Matrix (Fin 3) (Fin 3) R :=
    !![cos (theta 2), -sin (theta 2), 0;
       sin (theta 2), cos (theta 2),  0;
       0,             0,              1]
  R_z * R_y * R_x

/-- The type `cv::Point2f`. -/
structure Point2f (β : Type) where
  x : β
  y : β
  deriving DecidableEq, Repr

/-- The member `board_config_`: the three values `Read_ArUco_YAML` fills. -/
structure BoardConfig (β : Type) where
  dictionary : Option PredefinedDictionary
  ids : List Int
  objPoints : List (List (Point3f β))

/-- The object built by `cv::aruco::Board::create`. -/
structure Board (β : Type) where
  objPoints : List (List (Point3f β))
  dictionary : Option PredefinedDictionary
  ids : List Int

/-- The OpenCV calls of the loop body, as functions of the arguments the
body passes that are not constants: `detectMarkers` gives `markerCorners` and
`markerIds`, `getBoardObjectAndImagePoints` gives `objPoints` and `imgPoints`,
`solvePnP` gives `rvec` and `tvec`. -/
structure OpenCV (P R β : Type) where
  detectMarkers : Mat P → Option PredefinedDictionary → List (List (Point2f β)) × List Int
  getBoardObjectAndImagePoints :
    Board β → List (List (Point2f β)) → List Int → List (Point3f β) × List (Point2f β)
  solvePnP : List (Point3f β) → List (Point2f β) → Mat R → Vec3d R × Vec3d R

/-- The fields of `Camera` the loop, the setters and the getter share:
`camera1_.image`, `camera1_.instrinsic`, `tf_`, and the board configuration. -/
structure Camera (P R β : Type) where
  image : Mat P
  instrinsic : Mat R
  tf_ : Mat R
  board_config_ : BoardConfig β

/-- The state the constructor leaves once `Read_ArUco_YAML` has returned: the
three matrices are default constructed. -/
def Camera.fresh {P R β : Type} (board_config : BoardConfig β) : Camera P R β :=
  ⟨Mat.default, Mat.default, Mat.default, board_config⟩

/-- The setter `Camera::setCameraMatrix`. -/
def setCameraMatrix {P R β : Type} (c : Camera P R β) (camera_matrix : Mat R) : Camera P R β :=
  { c with instrinsic := camera_matrix }

/-- The setter `Camera::setCameraImage`. -/
def setCameraImage {P R β : Type} (c : Camera P R β) (input_image : Mat P) : Camera P R β :=
  { c with image := input_image }

/-- The getter `Camera::getTransformationMatrix`. -/
def getTransformationMatrix {P R β : Type} (c : Camera P R β) : Mat R := c.tf_

/-- The OpenCV calls whose occurrence a pass through the loop body records. -/
inductive Call
  | detectMarkers
  | solvePnP
  deriving DecidableEq, Repr

/-- Lines 135 to 143 of the loop body: the board, the detection, and the
lookup giving `objPoints` and `imgPoints`. -/
def boardObjectAndImagePoints {P R β : Type} (cv : OpenCV P R β) (c : Camera P R β) :
    List (Point3f β) × List (Point2f β) :=
  let input_image := c.image
  let board : Board β :=
    ⟨c.board_config_.objPoints, c.board_config_.dictionary, c.board_config_.ids⟩
  let detected := cv.detectMarkers input_image c.board_config_.dictionary
  cv.getBoardObjectAndImagePoints board detected.1 detected.2

/-- One pass through the body of the loop of `Camera::extrinsicCalibration`
(lines 118 to 162): the camera after the pass and the OpenCV calls made, in
order.  The drawing calls, which only touch the local `output_image`, are
left out. -/
def extrinsicCalibration {P R β : Type} [CommRing R] (cv : OpenCV P R β) (sin cos : R → R)
    (c : Camera P R β) : Camera P R β × List Call :=
  let input_image := c.image
  let instrinsic := c.instrinsic
  if !input_image.empty && !instrinsic.empty then
    let points := boardObjectAndImagePoints cv c
    let objPoints := points.1
    let imgPoints := points.2
    let rvec : Vec3d R := fun _ => 0
    let tvec : Vec3d R := fun _ => 0
    let solved : (Vec3d R × Vec3d R) × List Call :=
      if !objPoints.isEmpty && !imgPoints.isEmpty then
        (cv.solvePnP objPoints imgPoints instrinsic, [Call.detectMarkers, Call.solvePnP])
      else
        ((rvec, tvec), [Call.detectMarkers])
    let rotation_matrix := eulerAnglesToRotationMatrix sin cos solved.1.1
    ({ c with tf_ := Mat.of rotation_matrix }, solved.2)
  else
    (c, [])

/-- What happens to a camera between construction and destruction: calls of
the two setters by the producers and passes through the loop body.  A setter
call that falls between the two reads of a pass has the effect of one just
before the pass (`setCameraMatrix`) or just after it (`setCameraImage`), so a
sequence of whole events covers every interleaving. -/
inductive Event (P R : Type)
  | setCameraImage (input_image : Mat P)
  | setCameraMatrix (camera_matrix : Mat R)
  | pass

/-- The camera and the OpenCV calls made after a sequence of events. -/
def run {P R β : Type} [CommRing R] (cv : OpenCV P R β) (sin cos : R → R) :
    Camera P R β → List (Event P R) → Camera P R β × List Call
  | c, [] => (c, [])
  | c, Event.setCameraImage m :: es => run cv sin cos (setCameraImage c m) es
  | c, Event.setCameraMatrix m :: es => run cv sin cos (setCameraMatrix c m) es
  | c, Event.pass :: es =>
    let r := extrinsicCalibration cv sin cos c
    let rest := run cv sin cos r.1 es
    (rest.1, r.2 ++ rest.2)

/-- Modelled from the spec: the correspondence lookup of step 5 of the loop
(the OpenCV function `cv::aruco::getBoardObjectAndImagePoints`, which is not
part of the sources).  Each detected marker whose ID is in the ID list of the
board pairs its four detected corners with the four board corners of that ID,
in index order; a detected marker whose ID is not in the list gives nothing. -/
def getBoardObjectAndImagePoints {β : Type} (board : Board β)
    (detectedCorners : List (List (Point2f β))) (detectedIds : List Int) :
    List (Point3f β) × List (Point2f β) :=
  let pairs : List (Point3f β × Point2f β) :=
    (detectedIds.zip detectedCorners).flatMap fun d =>
      (board.ids.zip board.objPoints).flatMap fun b =>
        if d.1 = b.1 then (b.2.take 4).zip (d.2.take 4) else []
  (pairs.map Prod.fst, pairs.map Prod.snd)

/-! ## Notions the statements below are phrased in -/

/-- The points of a flat coordinate list in input order: every three
consecutive values are one point. -/
def groups3 {α β : Type} (narrow : α → β) : List α → List (Point3f β)
  | x :: y :: z :: rest => Point3f.mk (narrow x) (narrow y) (narrow z) :: groups3 narrow rest
  | _ => []

/-- A marker with its first two corners exchanged and its next two corners
exchanged. -/
def swap4 {γ : Type} : List γ → List γ
  | p0 :: p1 :: p2 :: p3 :: rest => p1 :: p0 :: p3 :: p2 :: rest
  | m => m

/-- The right-handed rotation by the angle `a` about the coordinate axis
`axis`, given by what it does to the basis vectors (the columns): the vector
of the axis is fixed, the next vector in the cyclic order X, Y, Z turns
towards the one after it, `e₁ ↦ cos a • e₁ + sin a • e₂` and
`e₂ ↦ - sin a • e₁ + cos a • e₂`. -/
def elementaryRotation {R : Type} [CommRing R] (sin cos : R → R) (axis : Fin 3) (a : R) :
    Matrix (Fin 3) (Fin 3) R :=
  Matrix.of fun i j =>
    if j = axis then (if i = axis then 1 else 0)
    else if j = axis + 1 then
      (if i = axis + 1 then cos a else if i = axis + 2 then sin a else 0)
    else
      (if i = axis + 1 then -sin a else if i = axis + 2 then cos a else 0)

/-- The number of IDs the document lists: the length of the sequence under
`ids`, and 0 when there is none. -/
def idCount {α : Type} (config : Config α) : Nat :=
  match config.ids with
  | some (.integers values) => values.length
  | _ => 0

/-- The number of markers the document lists: the length of the sequence
under `objPoints`, and 0 when there is none. -/
def markerCount {α : Type} (config : Config α) : Nat :=
  match config.objPoints with
  | some (.lists values) => values.length
  | _ => 0

/-- The `ids` node is not there, or it is a sequence of integers that all fit
the type `int`: line 87 does not raise. -/
def idsReadable {α : Type} (config : Config α) : Prop :=
  config.ids = none ∨ ∃ values, config.ids = some (.integers values) ∧ values.all fitsInt = true

/-! ## Concrete inputs -/

/-- A document of 29 markers of four corners each, marker `i` lying in the
plane `z = i`, with IDs 0 to 28. -/
def board29 : Config Int :=
  ⟨some (.lists ((List.range 29).map fun i => [0, 0, i, 1, 0, i, 1, 1, i, 0, 1, i])),
   some (.integers ((List.range 29).map fun i => (i : Int)))⟩

/-- A board of the single marker 0. -/
def oneMarkerBoard : BoardConfig Int :=
  ⟨some .DICT_4X4_100, [0], [[⟨0, 0, 0⟩, ⟨1, 0, 0⟩, ⟨1, 1, 0⟩, ⟨0, 1, 0⟩]]⟩

/-- An image of one pixel. -/
def image1x1 : Mat Nat := Mat.of !![0]

/-- A camera matrix: the identity. -/
def cameraMatrix (R : Type) [CommRing R] : Mat R := Mat.of (1 : Matrix (Fin 3) (Fin 3) R)

/-- The quarter turn about the Z axis. -/
def quarterTurn (R : Type) [CommRing R] : Matrix (Fin 3) (Fin 3) R :=
  !![0, -1, 0; 1, 0, 0; 0, 0, 1]

/-- An OpenCV whose detector sees the one marker `id` and whose solver
answers `rvec` and `tvec`. -/
def seesMarker (R : Type) (id : Int) (rvec tvec : Vec3d R) : OpenCV Nat R Int :=
  ⟨fun _ _ => ([[⟨10, 10⟩, ⟨20, 10⟩, ⟨20, 20⟩, ⟨10, 20⟩]], [id]),
   getBoardObjectAndImagePoints,
   fun _ _ _ => (rvec, tvec)⟩

/-- An OpenCV whose detector sees no marker. -/
def seesNothing (R : Type) (rvec tvec : Vec3d R) : OpenCV Nat R Int :=
  ⟨fun _ _ => ([], []), getBoardObjectAndImagePoints, fun _ _ _ => (rvec, tvec)⟩

/-- A camera that has an image, a camera matrix and a published transform. -/
def calibratedCamera (R : Type) [CommRing R] : Camera Nat R Int :=
  ⟨image1x1, cameraMatrix R, Mat.of (quarterTurn R), oneMarkerBoard⟩

/-! ## The loops of the loader -/

theorem vec_at_append_right {γ : Type} (pre rest : List γ) (k : Nat) :
    vec_at (pre ++ rest) (pre.length + k) = vec_at rest k := by
  unfold vec_at
  rw [List.getElem?_append_right (Nat.le_add_right _ _)]
  simp

theorem pushPoint_append {α β : Type} (narrow : α → β) (pre : List α) (x y z : α)
    (rest : List α) (acc : List (Point3f β)) :
    pushPoint narrow (pre ++ x :: y :: z :: rest) acc pre.length
      = .ok (acc ++ [Point3f.mk (narrow x) (narrow y) (narrow z)]) := by
  have h0 := vec_at_append_right pre (x :: y :: z :: rest) 0
  have h1 := vec_at_append_right pre (x :: y :: z :: rest) 1
  have h2 := vec_at_append_right pre (x :: y :: z :: rest) 2
  simp only [Nat.add_zero] at h0
  unfold pushPoint
  rw [h0, h1, h2]
  simp [vec_at, bind, Except.bind, pure, Except.pure]

theorem foldlM_pushPoint_ok {α β : Type} (narrow : α → β) (n : Nat) :
    ∀ (rest pre : List α) (acc : List (Point3f β)), 3 * n ≤ rest.length →
      (List.range' pre.length n 3).foldlM (pushPoint narrow (pre ++ rest)) acc
        = .ok (acc ++ (groups3 narrow rest).take n) := by
  induction n with
  | zero => intro rest pre acc _; simp [pure, Except.pure]
  | succ n ih =>
    intro rest pre acc h
    match rest, h with
    | x :: y :: z :: rest, h =>
      have hlen : 3 * n ≤ rest.length := by simp at h; omega
      have key := ih rest (pre ++ [x, y, z]) (acc ++ [Point3f.mk (narrow x) (narrow y) (narrow z)]) hlen
      have e1 : (pre ++ [x, y, z]).length = pre.length + 3 := by simp
      have e2 : pre ++ [x, y, z] ++ rest = pre ++ x :: y :: z :: rest := by simp
      rw [e1, e2] at key
      rw [List.range'_succ, List.foldlM_cons, pushPoint_append]
      simp only [bind, Except.bind]
      rw [key]
      simp [groups3]
    | [], h => simp at h
    | [_], h => simp at h; omega
    | [_, _], h => simp at h; omega

theorem pushPoint_short {α β : Type} (narrow : α → β) (pre rest : List α)
    (acc : List (Point3f β)) (h : rest.length = 1 ∨ rest.length = 2) :
    pushPoint narrow (pre ++ rest) acc pre.length = .error .out_of_range := by
  have h0 := vec_at_append_right pre rest 0
  have h1 := vec_at_append_right pre rest 1
  have h2 := vec_at_append_right pre rest 2
  simp only [Nat.add_zero] at h0
  unfold pushPoint
  rw [h0, h1, h2]
  match rest, h with
  | [_], _ => simp [vec_at, bind, Except.bind]
  | [_, _], _ => simp [vec_at, bind, Except.bind]
  | [], h => simp at h
  | _ :: _ :: _ :: _, h => simp at h

theorem foldlM_pushPoint_error {α β : Type} (narrow : α → β) (n : Nat) :
    ∀ (rest pre : List α) (acc : List (Point3f β)),
      rest.length = 3 * n + 1 ∨ rest.length = 3 * n + 2 →
      (List.range' pre.length (n + 1) 3).foldlM (pushPoint narrow (pre ++ rest)) acc
        = .error .out_of_range := by
  induction n with
  | zero =>
    intro rest pre acc h
    rw [List.range'_succ, List.foldlM_cons, pushPoint_short narrow pre rest acc (by simpa using h)]
    rfl
  | succ n ih =>
    intro rest pre acc h
    match rest, h with
    | x :: y :: z :: rest, h =>
      have hlen : rest.length = 3 * n + 1 ∨ rest.length = 3 * n + 2 := by simp at h; omega
      have key := ih rest (pre ++ [x, y, z]) (acc ++ [Point3f.mk (narrow x) (narrow y) (narrow z)]) hlen
      have e1 : (pre ++ [x, y, z]).length = pre.length + 3 := by simp
      have e2 : pre ++ [x, y, z] ++ rest = pre ++ x :: y :: z :: rest := by simp
      rw [e1, e2] at key
      rw [List.range'_succ, List.foldlM_cons, pushPoint_append]
      simp only [bind, Except.bind]
      rw [key]
    | [], h => simp at h
    | [_], h => simp at h
    | [_, _], h => simp at h

theorem length_groups3 {α β : Type} (narrow : α → β) :
    ∀ (n : Nat) (v : List α), v.length < n → (groups3 narrow v).length = v.length / 3 := by
  intro n
  induction n with
  | zero => intro v h; omega
  | succ n ih =>
    intro v h
    match v with
    | [] => simp [groups3]
    | [_] => simp [groups3]
    | [_, _] => simp [groups3]
    | x :: y :: z :: rest =>
      have := ih rest (by simp at h; omega)
      simp only [groups3, List.length_cons, this]
      omega

/-- The inner loop returns exactly when the length of the list is a multiple
of three, and then gives the points in input order. -/
theorem markerPoints_eq {α β : Type} (narrow : α → β) (v : List α) :
    markerPoints narrow v
      = if v.length % 3 = 0 then .ok (groups3 narrow v) else .error .out_of_range := by
  unfold markerPoints
  split
  · next h =>
    have key := foldlM_pushPoint_ok narrow ((v.length + 2) / 3) v [] [] (by omega)
    simp only [List.length_nil, List.nil_append] at key
    rw [key, List.take_of_length_le]
    rw [length_groups3 narrow (v.length + 1) v (by omega)]
    omega
  · next h =>
    have hn : (v.length + 2) / 3 = v.length / 3 + 1 := by omega
    have key := foldlM_pushPoint_error narrow (v.length / 3) v [] [] (by omega)
    simp only [List.length_nil, List.nil_append] at key
    rw [hn, key]

/-- The outer loop returns exactly when every inner list has a length that is
a multiple of three; the first list that has not raises `out_of_range`. -/
theorem mapM_markerPoints_eq {α β : Type} (narrow : α → β) (ls : List (List α)) :
    ls.mapM (markerPoints narrow)
      = if ∀ l ∈ ls, l.length % 3 = 0 then .ok (ls.map (groups3 narrow))
        else .error .out_of_range := by
  induction ls with
  | nil => rw [List.mapM_nil, if_pos (by simp)]; rfl
  | cons l ls ih =>
    rw [List.mapM_cons, ih, markerPoints_eq]
    have hc : (∀ k ∈ l :: ls, k.length % 3 = 0)
        ↔ (l.length % 3 = 0 ∧ ∀ k ∈ ls, k.length % 3 = 0) := List.forall_mem_cons
    by_cases h1 : l.length % 3 = 0
    · by_cases h2 : ∀ l ∈ ls, l.length % 3 = 0
      · rw [if_pos h1, if_pos h2, if_pos (hc.mpr ⟨h1, h2⟩)]; rfl
      · rw [if_pos h1, if_neg h2, if_neg (fun h => h2 (hc.mp h).2)]; rfl
    · rw [if_neg h1, if_neg (fun h => h1 (hc.mp h).1)]; rfl

theorem markerConers_eq {α β : Type} (narrow : α → β) (ls : List (List α)) :
    markerConers narrow ls
      = if ∀ l ∈ ls, l.length % 3 = 0 then .ok (ls.map (groups3 narrow))
        else .error .out_of_range := by
  rw [← mapM_markerPoints_eq]
  unfold markerConers
  match ls with
  | [] => rfl
  | l :: ls => simp

theorem iter_swap_pair {γ : Type} (m : List γ) :
    (iter_swap m 0 1 >>= fun m1 => iter_swap m1 2 3)
      = if 4 ≤ m.length then .ok (swap4 m) else .error .undefined_behaviour := by
  match m with
  | [] => rfl
  | [_] => rfl
  | [_, _] => rfl
  | [_, _, _] => rfl
  | p0 :: p1 :: p2 :: p3 :: rest =>
    rw [if_pos (by simp)]
    simp [iter_swap, swap4, bind, Except.bind]

theorem swapMarker_eq {γ : Type} (pre : List (List γ)) (m : List γ) (post : List (List γ)) :
    swapMarker (pre ++ m :: post) pre.length
      = if 4 ≤ m.length then .ok (pre ++ swap4 m :: post) else .error .undefined_behaviour := by
  have h0 := vec_at_append_right pre (m :: post) 0
  simp only [Nat.add_zero] at h0
  have hp := iter_swap_pair m
  unfold swapMarker
  rw [h0]
  simp only [vec_at, List.getElem?_cons_zero, bind, Except.bind] at hp ⊢
  by_cases h : 4 ≤ m.length
  · rw [if_pos h] at hp ⊢
    cases h1 : iter_swap m 0 1 with
    | error e => rw [h1] at hp; simp at hp
    | ok m1 =>
      rw [h1] at hp
      simp only at hp ⊢
      rw [hp]
      simp [pure, Except.pure]
  · rw [if_neg h] at hp ⊢
    cases h1 : iter_swap m 0 1 with
    | error e =>
      rw [h1] at hp
      simp only at hp ⊢
      rw [Except.error.inj hp]
    | ok m1 =>
      rw [h1] at hp
      simp only at hp ⊢
      rw [hp]

theorem foldlM_swapMarker {γ : Type} (post : List (List γ)) :
    ∀ pre : List (List γ),
      (List.range' pre.length post.length).foldlM swapMarker (pre ++ post)
        = if ∀ m ∈ post, 4 ≤ m.length then .ok (pre ++ post.map swap4)
          else .error .undefined_behaviour := by
  induction post with
  | nil => intro pre; simp [pure, Except.pure]
  | cons m post ih =>
    intro pre
    have hc : (∀ k ∈ m :: post, 4 ≤ k.length)
        ↔ (4 ≤ m.length ∧ ∀ k ∈ post, 4 ≤ k.length) := List.forall_mem_cons
    rw [List.length_cons, List.range'_succ, List.foldlM_cons, swapMarker_eq]
    by_cases h1 : 4 ≤ m.length
    · have key := ih (pre ++ [swap4 m])
      have e1 : (pre ++ [swap4 m]).length = pre.length + 1 := by simp
      have e2 : pre ++ [swap4 m] ++ post = pre ++ swap4 m :: post := by simp
      rw [e1, e2] at key
      rw [if_pos h1]
      simp only [bind, Except.bind]
      rw [key]
      by_cases h2 : ∀ k ∈ post, 4 ≤ k.length
      · rw [if_pos h2, if_pos (hc.mpr ⟨h1, h2⟩)]; simp
      · rw [if_neg h2, if_neg (fun h => h2 (hc.mp h).2)]
    · rw [if_neg h1, if_neg (fun h => h1 (hc.mp h).1)]; rfl

/-- The corner swap loop has defined behaviour exactly when every marker from
index 28 on has at least four corners, and then exchanges the corners of each
of them and leaves the first 28 markers alone. -/
theorem swapCorners_eq {γ : Type} (ms : List (List γ)) :
    swapCorners ms
      = if ∀ m ∈ ms.drop 28, 4 ≤ m.length then .ok (ms.take 28 ++ (ms.drop 28).map swap4)
        else .error .undefined_behaviour := by
  unfold swapCorners
  by_cases h : ms.length ≤ 28
  · have hd : ms.drop 28 = [] := List.drop_eq_nil_of_le h
    have ht : ms.take 28 = ms := List.take_of_length_le h
    have hn : ms.length - 28 = 0 := by omega
    rw [hd, ht, hn, if_pos (by simp)]
    simp [pure, Except.pure]
  · have key := foldlM_swapMarker (ms.drop 28) (ms.take 28)
    have e1 : (ms.take 28).length = 28 := by rw [List.length_take]; omega
    rw [e1, List.length_drop, List.take_append_drop] at key
    exact key

theorem length_swap4 {γ : Type} (m : List γ) : (swap4 m).length = m.length := by
  match m with
  | [] => rfl
  | [_] => rfl
  | [_, _] => rfl
  | [_, _, _] => rfl
  | _ :: _ :: _ :: _ :: _ => rfl

theorem swap4_cons {γ : Type} (m : List γ) (h : 4 ≤ m.length) :
    ∃ p0 p1 p2 p3 rest, m = p0 :: p1 :: p2 :: p3 :: rest
      ∧ swap4 m = p1 :: p0 :: p3 :: p2 :: rest := by
  match m, h with
  | p0 :: p1 :: p2 :: p3 :: rest, _ => exact ⟨p0, p1, p2, p3, rest, rfl, rfl⟩
  | [], h => simp at h
  | [_], h => simp at h
  | [_, _], h => simp at h
  | [_, _, _], h => simp at h

theorem groups3_getElem? {α β : Type} (narrow : α → β) (k : Nat) :
    ∀ v : List α, k < v.length / 3 →
      ∃ x y z, v[3 * k]? = some x ∧ v[3 * k + 1]? = some y ∧ v[3 * k + 2]? = some z
        ∧ (groups3 narrow v)[k]? = some (Point3f.mk (narrow x) (narrow y) (narrow z)) := by
  induction k with
  | zero =>
    intro v h
    match v, h with
    | x :: y :: z :: rest, _ => exact ⟨x, y, z, by simp, by simp, by simp, by simp [groups3]⟩
    | [], h => simp only [List.length_nil] at h; omega
    | [_], h => simp only [List.length_cons, List.length_nil] at h; omega
    | [_, _], h => simp only [List.length_cons, List.length_nil] at h; omega
  | succ k ih =>
    intro v h
    match v, h with
    | x :: y :: z :: rest, h =>
      have hk : k < rest.length / 3 := by simp only [List.length_cons] at h; omega
      obtain ⟨a, b, c, ha, hb, hc, hp⟩ := ih rest hk
      refine ⟨a, b, c, ?_, ?_, ?_, ?_⟩
      · rw [← ha, show 3 * (k + 1) = 3 * k + 1 + 1 + 1 by ring]
        simp only [List.getElem?_cons_succ]
      · rw [← hb, show 3 * (k + 1) + 1 = 3 * k + 1 + 1 + 1 + 1 by ring]
        simp only [List.getElem?_cons_succ]
      · rw [← hc, show 3 * (k + 1) + 2 = 3 * k + 2 + 1 + 1 + 1 by ring]
        simp only [List.getElem?_cons_succ]
      · rw [← hp]
        simp only [groups3, List.getElem?_cons_succ]
    | [], h => simp only [List.length_nil] at h; omega
    | [_], h => simp only [List.length_cons, List.length_nil] at h; omega
    | [_, _], h => simp only [List.length_cons, List.length_nil] at h; omega

/-! ## The ways a load can end -/

theorem readIds_absent {α β : Type} (config : Config α) (o : Outcome β)
    (h : config.ids = none) : readIds config o = o := by
  unfold readIds
  rw [h]

theorem readIds_integers {α β : Type} (config : Config α) (o : Outcome β) (values : List Int)
    (h : config.ids = some (.integers values)) (hfit : values.all fitsInt = true) :
    readIds config o = { o with ids := values } := by
  unfold readIds
  rw [h]
  simp only [as_vector_int, hfit, if_true]

theorem readIds_objPoints {α β : Type} (config : Config α) (o : Outcome β) :
    (readIds config o).objPoints = o.objPoints := by
  unfold readIds
  cases config.ids with
  | none => rfl
  | some node =>
    simp only
    cases as_vector_int node <;> rfl

/-- Lines 86 and 87 end in one of three ways: the key is not there and
nothing changes, the node converts and `ids` is assigned, or the conversion
raises. -/
theorem readIds_cases {α β : Type} (config : Config α) (o : Outcome β) :
    (config.ids = none ∧ readIds config o = o)
    ∨ (∃ values, config.ids = some (.integers values) ∧ values.all fitsInt = true
        ∧ readIds config o = { o with ids := values })
    ∨ (¬ idsReadable config ∧ readIds config o = { o with result := .error .BadConversion }) := by
  cases h : config.ids with
  | none => exact Or.inl ⟨rfl, readIds_absent config o h⟩
  | some node =>
    cases node with
    | malformed =>
      refine Or.inr (Or.inr ⟨?_, ?_⟩)
      · rintro (h1 | ⟨values, h1, _⟩) <;> rw [h] at h1 <;> cases h1
      · unfold readIds
        rw [h]
        rfl
    | integers values =>
      cases hfit : values.all fitsInt with
      | true => exact Or.inr (Or.inl ⟨values, rfl, hfit, readIds_integers config o values h hfit⟩)
      | false =>
        refine Or.inr (Or.inr ⟨?_, ?_⟩)
        · rintro (h1 | ⟨l, h1, h2⟩)
          · rw [h] at h1; cases h1
          · rw [h] at h1
            cases h1
            rw [hfit] at h2
            cases h2
        · unfold readIds
          rw [h]
          simp only [as_vector_int, hfit]
          rfl

theorem readIds_readable {α β : Type} (config : Config α) (o : Outcome β)
    (h : idsReadable config) : (readIds config o).result = o.result := by
  rcases readIds_cases config o with ⟨_, e⟩ | ⟨_, _, _, e⟩ | ⟨hn, _⟩
  · rw [e]
  · rw [e]
  · exact absurd h hn

theorem readObjPoints_ids {α β : Type} (narrow : α → β) (config : Config α)
    (dictionary : Option PredefinedDictionary) (ids : List Int)
    (objPoints : List (List (Point3f β))) :
    (readObjPoints narrow config dictionary ids objPoints).ids = ids := by
  unfold readObjPoints
  cases config.objPoints with
  | none => rfl
  | some node =>
    simp only
    cases as_vector_vector_double node with
    | error e => rfl
    | ok objPointss =>
      simp only
      cases markerConers narrow objPointss with
      | error e => rfl
      | ok markers =>
        simp only
        cases swapCorners markers <;> rfl

theorem Read_ArUco_YAML_map {α β : Type} (narrow : α → β) (config : Config α)
    (ids : List Int) (objPoints : List (List (Point3f β))) :
    Read_ArUco_YAML narrow (.parsed (.map config)) ids objPoints
      = match (readObjPoints narrow config (some .DICT_4X4_100) ids objPoints).result with
        | .error _ => readObjPoints narrow config (some .DICT_4X4_100) ids objPoints
        | .ok _ => readIds config (readObjPoints narrow config (some .DICT_4X4_100) ids objPoints) :=
  rfl

theorem Read_ArUco_YAML_map_cases {α β : Type} (narrow : α → β) (config : Config α)
    (ids : List Int) (objPoints : List (List (Point3f β))) :
    ((∃ e, (readObjPoints narrow config (some .DICT_4X4_100) ids objPoints).result = .error e)
      ∧ Read_ArUco_YAML narrow (.parsed (.map config)) ids objPoints
          = readObjPoints narrow config (some .DICT_4X4_100) ids objPoints)
    ∨ ((∃ b, (readObjPoints narrow config (some .DICT_4X4_100) ids objPoints).result = .ok b)
      ∧ Read_ArUco_YAML narrow (.parsed (.map config)) ids objPoints
          = readIds config (readObjPoints narrow config (some .DICT_4X4_100) ids objPoints)) := by
  rw [Read_ArUco_YAML_map]
  split
  · next e h => exact Or.inl ⟨⟨e, h⟩, rfl⟩
  · next b h => exact Or.inr ⟨⟨b, h⟩, rfl⟩

theorem Read_ArUco_YAML_malformed {α β : Type} (narrow : α → β) (config : Config α)
    (ids : List Int) (objPoints : List (List (Point3f β)))
    (hkey : config.objPoints = some .malformed) :
    Read_ArUco_YAML narrow (.parsed (.map config)) ids objPoints
      = ⟨.error .BadConversion, some .DICT_4X4_100, ids, objPoints⟩ := by
  rw [Read_ArUco_YAML_map]
  simp only [readObjPoints, hkey, as_vector_vector_double]

theorem Read_ArUco_YAML_bad_length {α β : Type} (narrow : α → β) (config : Config α)
    (objPointss : List (List α)) (ids : List Int) (objPoints : List (List (Point3f β)))
    (hkey : config.objPoints = some (.lists objPointss))
    (hbad : ¬ ∀ v ∈ objPointss, v.length % 3 = 0) :
    Read_ArUco_YAML narrow (.parsed (.map config)) ids objPoints
      = ⟨.error .out_of_range, some .DICT_4X4_100, ids, objPoints⟩ := by
  rw [Read_ArUco_YAML_map]
  simp only [readObjPoints, hkey, as_vector_vector_double, markerConers_eq, if_neg hbad]

theorem Read_ArUco_YAML_short_marker {α β : Type} (narrow : α → β) (config : Config α)
    (objPointss : List (List α)) (ids : List Int) (objPoints : List (List (Point3f β)))
    (hkey : config.objPoints = some (.lists objPointss))
    (hlen : ∀ v ∈ objPointss, v.length % 3 = 0)
    (hbad : ¬ ∀ m ∈ (objPointss.map (groups3 narrow)).drop 28, 4 ≤ m.length) :
    Read_ArUco_YAML narrow (.parsed (.map config)) ids objPoints
      = ⟨.error .undefined_behaviour, some .DICT_4X4_100, ids,
          objPointss.map (groups3 narrow)⟩ := by
  rw [Read_ArUco_YAML_map]
  simp only [readObjPoints, hkey, as_vector_vector_double, markerConers_eq, if_pos hlen,
    swapCorners_eq, if_neg hbad]

/-- With lists of good lengths and four corners from index 28 on, lines 61 to
84 assign the grouped and swapped markers, and what is left is lines 86 and
87. -/
theorem Read_ArUco_YAML_loaded {α β : Type} (narrow : α → β) (config : Config α)
    (objPointss : List (List α)) (ids : List Int) (objPoints : List (List (Point3f β)))
    (hkey : config.objPoints = some (.lists objPointss))
    (hlen : ∀ v ∈ objPointss, v.length % 3 = 0)
    (hfour : ∀ m ∈ (objPointss.map (groups3 narrow)).drop 28, 4 ≤ m.length) :
    Read_ArUco_YAML narrow (.parsed (.map config)) ids objPoints
      = readIds config ⟨.ok true, some .DICT_4X4_100, ids,
          (objPointss.map (groups3 narrow)).take 28
            ++ ((objPointss.map (groups3 narrow)).drop 28).map swap4⟩ := by
  rw [Read_ArUco_YAML_map]
  simp only [readObjPoints, hkey, as_vector_vector_double, markerConers_eq, if_pos hlen,
    swapCorners_eq, if_pos hfour]

theorem Read_ArUco_YAML_no_objPoints {α β : Type} (narrow : α → β) (config : Config α)
    (ids : List Int) (objPoints : List (List (Point3f β)))
    (hkey : config.objPoints = none) :
    Read_ArUco_YAML narrow (.parsed (.map config)) ids objPoints
      = readIds config ⟨.ok true, some .DICT_4X4_100, ids, objPoints⟩ := by
  rw [Read_ArUco_YAML_map]
  simp only [readObjPoints, hkey]

theorem swapped_getElem? {γ : Type} (ms : List (List γ)) (i : Nat) (m : List γ)
    (h : ms[i]? = some m) :
    (ms.take 28 ++ (ms.drop 28).map swap4)[i]? = some (if i < 28 then m else swap4 m) := by
  have hi : i < ms.length := by
    rcases Nat.lt_or_ge i ms.length with h1 | h1
    · exact h1
    · rw [List.getElem?_eq_none h1] at h; cases h
  by_cases h28 : i < 28
  · rw [if_pos h28, List.getElem?_append_left (by rw [List.length_take]; omega),
      List.getElem?_take, if_pos h28, h]
  · have e1 : (ms.take 28).length = 28 := by rw [List.length_take]; omega
    rw [if_neg h28, List.getElem?_append_right (by omega), e1, List.getElem?_map,
      List.getElem?_drop, show 28 + (i - 28) = i by omega, h]
    rfl

theorem length_swapped {γ : Type} (ms : List (List γ)) :
    (ms.take 28 ++ (ms.drop 28).map swap4).length = ms.length := by
  rw [List.length_append, List.length_map, ← List.length_append, List.take_append_drop]

theorem mem_drop_of_getElem? {γ : Type} (ms : List γ) (n i : Nat) (m : γ)
    (h : ms[i]? = some m) (hn : n ≤ i) : m ∈ ms.drop n := by
  rw [List.mem_iff_getElem?]
  exact ⟨i - n, by rw [List.getElem?_drop, show n + (i - n) = i by omega, h]⟩

/-- A load that returns has met no list of a bad length and no marker of
fewer than four corners from index 28 on. -/
theorem Read_ArUco_YAML_accepted {α β : Type} (narrow : α → β) (config : Config α)
    (objPointss : List (List α)) (ids : List Int) (objPoints : List (List (Point3f β)))
    (hkey : config.objPoints = some (.lists objPointss)) (b : Bool)
    (hacc : (Read_ArUco_YAML narrow (.parsed (.map config)) ids objPoints).result = .ok b) :
    (∀ v ∈ objPointss, v.length % 3 = 0)
      ∧ ∀ m ∈ (objPointss.map (groups3 narrow)).drop 28, 4 ≤ m.length := by
  by_cases hlen : ∀ v ∈ objPointss, v.length % 3 = 0
  · refine ⟨hlen, ?_⟩
    by_contra hbad
    rw [Read_ArUco_YAML_short_marker narrow config objPointss ids objPoints hkey hlen hbad] at hacc
    cases hacc
  · rw [Read_ArUco_YAML_bad_length narrow config objPointss ids objPoints hkey hlen] at hacc
    cases hacc

/-- C1: whenever `Read_ArUco_YAML` accepts a document with an `objPoints` key
(the call returns), each marker of the returned `objPoints` at an index below
28 is the list of points of its inner list in input order, and each marker at
an index from 28 on is that list with the corners at positions 0 and 1
exchanged and the corners at positions 2 and 3 exchanged: from the input
corners `in0, in1, in2, in3` it holds `in1, in0, in3, in2`. -/
theorem C1_corner_swap {α β : Type} (narrow : α → β) (config : Config α)
    (objPointss : List (List α)) (ids : List Int) (objPoints : List (List (Point3f β)))
    (hkey : config.objPoints = some (.lists objPointss))
    (hacc : (Read_ArUco_YAML narrow (.parsed (.map config)) ids objPoints).result = .ok true)
    (i : Nat) (v : List α) (hv : objPointss[i]? = some v) :
    (i < 28 →
      (Read_ArUco_YAML narrow (.parsed (.map config)) ids objPoints).objPoints[i]?
        = some (groups3 narrow v))
    ∧ (28 ≤ i → ∃ in0 in1 in2 in3 rest,
        groups3 narrow v = in0 :: in1 :: in2 :: in3 :: rest
        ∧ (Read_ArUco_YAML narrow (.parsed (.map config)) ids objPoints).objPoints[i]?
            = some (in1 :: in0 :: in3 :: in2 :: rest)) := by
  obtain ⟨hlen, hfour⟩ :=
    Read_ArUco_YAML_accepted narrow config objPointss ids objPoints hkey true hacc
  have hm : (objPointss.map (groups3 narrow))[i]? = some (groups3 narrow v) := by
    rw [List.getElem?_map, hv]; rfl
  rw [Read_ArUco_YAML_loaded narrow config objPointss ids objPoints hkey hlen hfour,
    readIds_objPoints]
  simp only
  rw [swapped_getElem? _ i _ hm]
  constructor
  · intro h; rw [if_pos h]
  · intro h
    have hmem := mem_drop_of_getElem? _ 28 i _ hm h
    obtain ⟨p0, p1, p2, p3, rest, e1, e2⟩ := swap4_cons _ (hfour _ hmem)
    exact ⟨p0, p1, p2, p3, rest, e1, by rw [if_neg (by omega), e2]⟩

/-- C4, amended: when every inner list of `objPoints` has a length that is a
multiple of three, every inner list at an index from 28 on has at least twelve
values, and the `ids` node is not there or is a sequence of integers that fit
the type `int`, `Read_ArUco_YAML` returns, the returned `objPoints` has one
marker per inner list in input order, marker `i` has a third as many points as
list `i` has values, and below index 28 its point `k` is made of the values at
positions `3k`, `3k + 1` and `3k + 2` of the list. -/
theorem C4_points_grouped {α β : Type} (narrow : α → β) (config : Config α)
    (objPointss : List (List α)) (ids : List Int) (objPoints : List (List (Point3f β)))
    (hkey : config.objPoints = some (.lists objPointss))
    (hlen : ∀ v ∈ objPointss, v.length % 3 = 0)
    (hquad : ∀ (i : Nat) (v : List α), 28 ≤ i → objPointss[i]? = some v → 12 ≤ v.length)
    (hids : idsReadable config) :
    (Read_ArUco_YAML narrow (.parsed (.map config)) ids objPoints).result = .ok true
    ∧ (Read_ArUco_YAML narrow (.parsed (.map config)) ids objPoints).objPoints.length
        = objPointss.length
    ∧ ∀ (i : Nat) (v : List α), objPointss[i]? = some v →
        ∃ marker,
          (Read_ArUco_YAML narrow (.parsed (.map config)) ids objPoints).objPoints[i]?
            = some marker
          ∧ marker.length = v.length / 3
          ∧ (i < 28 → ∀ k, k < v.length / 3 →
              ∃ x y z, v[3 * k]? = some x ∧ v[3 * k + 1]? = some y ∧ v[3 * k + 2]? = some z
                ∧ marker[k]? = some (Point3f.mk (narrow x) (narrow y) (narrow z))) := by
  have hfour : ∀ m ∈ (objPointss.map (groups3 narrow)).drop 28, 4 ≤ m.length := by
    intro m hm
    rw [List.mem_iff_getElem?] at hm
    obtain ⟨j, hj⟩ := hm
    rw [List.getElem?_drop, List.getElem?_map] at hj
    cases hv : objPointss[28 + j]? with
    | none => rw [hv] at hj; cases hj
    | some v =>
      rw [hv] at hj
      have h12 := hquad (28 + j) v (by omega) hv
      have := length_groups3 narrow (v.length + 1) v (by omega)
      cases hj
      omega
  rw [Read_ArUco_YAML_loaded narrow config objPointss ids objPoints hkey hlen hfour,
    readIds_objPoints, readIds_readable config _ hids]
  refine ⟨rfl, ?_, ?_⟩
  · simp only [length_swapped, List.length_map]
  · intro i v hv
    have hm : (objPointss.map (groups3 narrow))[i]? = some (groups3 narrow v) := by
      rw [List.getElem?_map, hv]; rfl
    have hl := length_groups3 narrow (v.length + 1) v (by omega)
    refine ⟨_, swapped_getElem? _ i _ hm, ?_, ?_⟩
    · split
      · exact hl
      · rw [length_swap4, hl]
    · intro h k hk
      rw [if_pos h]
      exact groups3_getElem? narrow k v hk

/-- C6: when the `objPoints` of the document has an inner list whose length is
not a multiple of three, `Read_ArUco_YAML` raises `std::out_of_range` instead
of returning, and the `ids` and `objPoints` of the caller are as on entry. -/
theorem C6_bad_length_raises {α β : Type} (narrow : α → β) (config : Config α)
    (objPointss : List (List α)) (ids : List Int) (objPoints : List (List (Point3f β)))
    (hkey : config.objPoints = some (.lists objPointss))
    (hbad : ∃ v ∈ objPointss, v.length % 3 ≠ 0) :
    (Read_ArUco_YAML narrow (.parsed (.map config)) ids objPoints).result
      = .error .out_of_range
    ∧ (Read_ArUco_YAML narrow (.parsed (.map config)) ids objPoints).ids = ids
    ∧ (Read_ArUco_YAML narrow (.parsed (.map config)) ids objPoints).objPoints = objPoints := by
  have hnot : ¬ ∀ v ∈ objPointss, v.length % 3 = 0 := by
    obtain ⟨v, hv, h3⟩ := hbad
    exact fun h => h3 (h v hv)
  rw [Read_ArUco_YAML_bad_length narrow config objPointss ids objPoints hkey hnot]
  exact ⟨rfl, rfl, rfl⟩

/-- C1, at the document `board29`: marker 28 comes back with its corners in
the order 1, 0, 3, 2. -/
theorem C1_corner_swap_witness :
    (28 < 28 →
      (Read_ArUco_YAML (fun a : Int => a) (.parsed (.map board29)) [] []).objPoints[28]?
        = some (groups3 (fun a : Int => a) [0, 0, 28, 1, 0, 28, 1, 1, 28, 0, 1, 28]))
    ∧ (28 ≤ 28 → ∃ in0 in1 in2 in3 rest,
        groups3 (fun a : Int => a) [0, 0, 28, 1, 0, 28, 1, 1, 28, 0, 1, 28]
          = in0 :: in1 :: in2 :: in3 :: rest
        ∧ (Read_ArUco_YAML (fun a : Int => a) (.parsed (.map board29)) [] []).objPoints[28]?
            = some (in1 :: in0 :: in3 :: in2 :: rest)) :=
  C1_corner_swap (fun a : Int => a) board29
    ((List.range 29).map fun i => [0, 0, i, 1, 0, i, 1, 1, i, 0, 1, i]) [] [] rfl rfl
    28 [0, 0, 28, 1, 0, 28, 1, 1, 28, 0, 1, 28] rfl

/-- C4 as stated fails twice.  29 inner lists of length 0 all have a length
that is a multiple of three, and the load does not return, because the corner
swap at index 28 goes through `begin()` of a marker with no corner.  And one
inner list of twelve values next to an `ids` list holding 4294967296 has a
length that is a multiple of three, and the load does not return, because the
conversion of line 87 to `std::vector<int>` raises. -/
theorem C4_counterexample :
    ((∀ v ∈ List.replicate 29 ([] : List Int), v.length % 3 = 0)
      ∧ (Read_ArUco_YAML (fun a : Int => a)
          (.parsed (.map ⟨some (.lists (List.replicate 29 [])), none⟩)) [] []).result
          = .error .undefined_behaviour)
    ∧ ((∀ v ∈ [[(0 : Int), 0, 0, 1, 0, 0, 1, 1, 0, 0, 1, 0]], v.length % 3 = 0)
      ∧ (Read_ArUco_YAML (fun a : Int => a)
          (.parsed (.map ⟨some (.lists [[0, 0, 0, 1, 0, 0, 1, 1, 0, 0, 1, 0]]),
            some (.integers [4294967296])⟩)) [] []).result
          = .error .BadConversion) :=
  ⟨⟨by decide, rfl⟩, ⟨by decide, rfl⟩⟩

/-- C4, amended, at the document `board29`. -/
theorem C4_points_grouped_witness :
    (Read_ArUco_YAML (fun a : Int => a) (.parsed (.map board29)) [] []).result = .ok true
    ∧ (Read_ArUco_YAML (fun a : Int => a) (.parsed (.map board29)) [] []).objPoints.length
        = 29 :=
  have h := C4_points_grouped (fun a : Int => a) board29
    ((List.range 29).map fun i => [0, 0, i, 1, 0, i, 1, 1, i, 0, 1, i]) [] [] rfl
    (by decide)
    (fun _ v _ hv =>
      (by decide : ∀ v ∈ (List.range 29).map
          fun i : Nat => ([0, 0, i, 1, 0, i, 1, 1, i, 0, 1, i] : List Int), 12 ≤ v.length)
        v (List.mem_iff_getElem?.mpr ⟨_, hv⟩))
    (Or.inr ⟨(List.range 29).map fun i => (i : Int), rfl, by decide⟩)
  ⟨h.1, h.2.1⟩

/-- C6, at a document whose second inner list has four values, loaded into
outputs that are not empty. -/
theorem C6_bad_length_raises_witness :
    (Read_ArUco_YAML (fun a : Int => a)
        (.parsed (.map ⟨some (.lists [[1, 2, 3], [1, 2, 3, 4]]), some (.integers [5])⟩))
        [9] [[⟨0, 0, 0⟩]]).result
      = .error .out_of_range
    ∧ (Read_ArUco_YAML (fun a : Int => a)
        (.parsed (.map ⟨some (.lists [[1, 2, 3], [1, 2, 3, 4]]), some (.integers [5])⟩))
        [9] [[⟨0, 0, 0⟩]]).ids = [9]
    ∧ (Read_ArUco_YAML (fun a : Int => a)
        (.parsed (.map ⟨some (.lists [[1, 2, 3], [1, 2, 3, 4]]), some (.integers [5])⟩))
        [9] [[⟨0, 0, 0⟩]]).objPoints
      = [[⟨0, 0, 0⟩]] :=
  C6_bad_length_raises (fun a : Int => a)
    ⟨some (.lists [[1, 2, 3], [1, 2, 3, 4]]), some (.integers [5])⟩
    [[1, 2, 3], [1, 2, 3, 4]] [9] [[⟨0, 0, 0⟩]] rfl ⟨[1, 2, 3, 4], by simp, by decide⟩

/-- C7 as stated fails: a document with one marker and two IDs loads, and the
two sequences of the result have lengths 2 and 1. -/
theorem C7_counterexample :
    (Read_ArUco_YAML (fun a : Int => a)
        (.parsed (.map ⟨some (.lists [[0, 0, 0, 1, 0, 0, 1, 1, 0, 0, 1, 0]]),
          some (.integers [4, 7])⟩)) [] []).result
      = .ok true
    ∧ (Read_ArUco_YAML (fun a : Int => a)
        (.parsed (.map ⟨some (.lists [[0, 0, 0, 1, 0, 0, 1, 1, 0, 0, 1, 0]]),
          some (.integers [4, 7])⟩)) [] []).ids.length = 2
    ∧ (Read_ArUco_YAML (fun a : Int => a)
        (.parsed (.map ⟨some (.lists [[0, 0, 0, 1, 0, 0, 1, 1, 0, 0, 1, 0]]),
          some (.integers [4, 7])⟩)) [] []).objPoints.length
      = 1 :=
  ⟨rfl, rfl, rfl⟩

/-- C7, amended: after a load that returns into empty outputs, `ids` has as
many entries as the `ids` list of the document and `objPoints` has one marker
per inner list of the `objPoints` of the document (none for a key that is not
there); the two have the same length exactly when the document lists as many
IDs as markers. -/
theorem C7_lengths {α β : Type} (narrow : α → β) (config : Config α)
    (hacc : (Read_ArUco_YAML narrow (.parsed (.map config)) []
        ([] : List (List (Point3f β)))).result = .ok true) :
    (Read_ArUco_YAML narrow (.parsed (.map config)) []
        ([] : List (List (Point3f β)))).ids.length = idCount config
    ∧ (Read_ArUco_YAML narrow (.parsed (.map config)) []
        ([] : List (List (Point3f β)))).objPoints.length = markerCount config
    ∧ ((Read_ArUco_YAML narrow (.parsed (.map config)) []
            ([] : List (List (Point3f β)))).ids.length
          = (Read_ArUco_YAML narrow (.parsed (.map config)) []
              ([] : List (List (Point3f β)))).objPoints.length
        ↔ idCount config = markerCount config) := by
  have key : ∀ o : Outcome β, o.ids = [] → (readIds config o).result = .ok true →
      (readIds config o).ids.length = idCount config := by
    intro o ho hres
    rcases readIds_cases config o with ⟨h, e⟩ | ⟨values, h, _, e⟩ | ⟨_, e⟩
    · rw [e, ho]; unfold idCount; rw [h]; rfl
    · rw [e]; unfold idCount; rw [h]
    · rw [e] at hres; cases hres
  have main :
      (Read_ArUco_YAML narrow (.parsed (.map config)) []
          ([] : List (List (Point3f β)))).ids.length = idCount config
      ∧ (Read_ArUco_YAML narrow (.parsed (.map config)) []
          ([] : List (List (Point3f β)))).objPoints.length = markerCount config := by
    cases hkey : config.objPoints with
    | none =>
      rw [Read_ArUco_YAML_no_objPoints narrow config [] [] hkey] at hacc ⊢
      refine ⟨key _ rfl hacc, ?_⟩
      rw [readIds_objPoints]
      unfold markerCount
      rw [hkey]
      rfl
    | some node =>
      cases node with
      | malformed =>
        rw [Read_ArUco_YAML_malformed narrow config [] [] hkey] at hacc
        cases hacc
      | lists objPointss =>
        obtain ⟨hlen, hfour⟩ :=
          Read_ArUco_YAML_accepted narrow config objPointss [] [] hkey true hacc
        rw [Read_ArUco_YAML_loaded narrow config objPointss [] [] hkey hlen hfour] at hacc ⊢
        refine ⟨key _ rfl hacc, ?_⟩
        rw [readIds_objPoints]
        unfold markerCount
        rw [hkey]
        simp only [length_swapped, List.length_map]
  exact ⟨main.1, main.2, by rw [main.1, main.2]⟩

/-- C7, amended, at the document `board29`, which lists 29 IDs and 29
markers. -/
theorem C7_lengths_witness :
    (Read_ArUco_YAML (fun a : Int => a) (.parsed (.map board29)) []
        ([] : List (List (Point3f Int)))).ids.length = idCount board29
    ∧ (Read_ArUco_YAML (fun a : Int => a) (.parsed (.map board29)) []
        ([] : List (List (Point3f Int)))).objPoints.length = markerCount board29 :=
  have h := C7_lengths (fun a : Int => a) board29 rfl
  ⟨h.1, h.2.1⟩

/-- C5 as stated fails: with no file to open the load raises `YAML::BadFile`
instead of returning; with a file that has neither key the outputs keep what
they held on entry, which need not be empty; and with a file that has no
`objPoints` key and an `ids` list holding 4294967296 the load raises
`YAML::BadConversion` instead of returning. -/
theorem C5_counterexample :
    (Read_ArUco_YAML (fun a : Int => a) .missing [] []).result = .error .BadFile
    ∧ (Read_ArUco_YAML (fun a : Int => a) (.parsed (.map ⟨none, none⟩))
        [3] [[⟨0, 0, 0⟩]]).ids = [3]
    ∧ (Read_ArUco_YAML (fun a : Int => a) (.parsed (.map ⟨none, none⟩))
        [3] [[⟨0, 0, 0⟩]]).objPoints = [[⟨0, 0, 0⟩]]
    ∧ (Read_ArUco_YAML (fun a : Int => a)
        (.parsed (.map ⟨none, some (.integers [4294967296])⟩)) [] []).result
        = .error .BadConversion :=
  ⟨rfl, rfl, rfl, rfl⟩

/-- C5, amended: for a file that parses to a document with keys, a missing
`objPoints` key leaves the `objPoints` output as on entry, and the load then
returns whenever the `ids` node is not there or converts to a vector of `int`
(the one way it can still fail is that conversion raising); a missing `ids`
key leaves the `ids` output as on entry and has no part in whether the load
returns (the result is the one for the same document with any list of `int`
under `ids`); so an output that was empty on entry is empty afterwards.  For a
file that cannot be opened the load raises `YAML::BadFile`, for a file that
does not parse it raises `YAML::ParserException`, and both outputs are as on
entry. -/
theorem C5_absent_keys {α β : Type} (narrow : α → β) (ids : List Int)
    (objPoints : List (List (Point3f β))) :
    (∀ config : Config α, config.objPoints = none →
      (Read_ArUco_YAML narrow (.parsed (.map config)) ids objPoints).objPoints = objPoints
      ∧ (idsReadable config →
          (Read_ArUco_YAML narrow (.parsed (.map config)) ids objPoints).result = .ok true)
      ∧ ((Read_ArUco_YAML narrow (.parsed (.map config)) ids objPoints).result = .ok true
          ∨ (¬ idsReadable config
            ∧ (Read_ArUco_YAML narrow (.parsed (.map config)) ids objPoints).result
                = .error .BadConversion)))
    ∧ (∀ config : Config α, config.ids = none →
      (Read_ArUco_YAML narrow (.parsed (.map config)) ids objPoints).ids = ids
      ∧ ∀ values : List Int, values.all fitsInt = true →
          (Read_ArUco_YAML narrow (.parsed (.map config)) ids objPoints).result
            = (Read_ArUco_YAML narrow
                (.parsed (.map { config with ids := some (.integers values) })) ids
                objPoints).result)
    ∧ ((Read_ArUco_YAML narrow (File.missing : File α) ids objPoints).result = .error .BadFile
      ∧ (Read_ArUco_YAML narrow (File.missing : File α) ids objPoints).ids = ids
      ∧ (Read_ArUco_YAML narrow (File.missing : File α) ids objPoints).objPoints = objPoints)
    ∧ ((Read_ArUco_YAML narrow (File.unparsable : File α) ids objPoints).result
          = .error .ParserException
      ∧ (Read_ArUco_YAML narrow (File.unparsable : File α) ids objPoints).ids = ids
      ∧ (Read_ArUco_YAML narrow (File.unparsable : File α) ids objPoints).objPoints
          = objPoints) := by
  refine ⟨?_, ?_, ⟨rfl, rfl, rfl⟩, ⟨rfl, rfl, rfl⟩⟩
  · intro config hkey
    rw [Read_ArUco_YAML_no_objPoints narrow config ids objPoints hkey]
    refine ⟨readIds_objPoints config _, fun h => ?_, ?_⟩
    · rw [readIds_readable config _ h]
    · rcases readIds_cases config
        (⟨.ok true, some .DICT_4X4_100, ids, objPoints⟩ : Outcome β)
        with ⟨_, e⟩ | ⟨_, _, _, e⟩ | ⟨hn, e⟩
      · exact Or.inl (by rw [e])
      · exact Or.inl (by rw [e])
      · exact Or.inr ⟨hn, by rw [e]⟩
  · intro config hids
    refine ⟨?_, fun values hfit => ?_⟩
    · rcases Read_ArUco_YAML_map_cases narrow config ids objPoints with ⟨_, e⟩ | ⟨_, e⟩
      · rw [e, readObjPoints_ids]
      · rw [e, readIds_absent config _ hids, readObjPoints_ids]
    · rcases Read_ArUco_YAML_map_cases narrow config ids objPoints with ⟨⟨x, hx⟩, e⟩ | ⟨⟨b, hb⟩, e⟩
      · rcases Read_ArUco_YAML_map_cases narrow { config with ids := some (.integers values) }
          ids objPoints with ⟨_, e2⟩ | ⟨⟨b, hb⟩, _⟩
        · rw [e, e2]; rfl
        · have hx2 : (readObjPoints narrow { config with ids := some (.integers values) }
              (some .DICT_4X4_100) ids objPoints).result = .error x := hx
          rw [hb] at hx2
          cases hx2
      · rcases Read_ArUco_YAML_map_cases narrow { config with ids := some (.integers values) }
          ids objPoints with ⟨⟨x, hx⟩, _⟩ | ⟨_, e2⟩
        · have hb2 : (readObjPoints narrow { config with ids := some (.integers values) }
              (some .DICT_4X4_100) ids objPoints).result = .ok b := hb
          rw [hx] at hb2
          cases hb2
        · rw [e, e2, readIds_absent config _ hids,
            readIds_integers { config with ids := some (.integers values) } _ values rfl hfit]
          rfl

/-- C5, amended, at a document that has only the `ids` key and at one that has
only the `objPoints` key, both loaded into empty outputs. -/
theorem C5_absent_keys_witness :
    ((Read_ArUco_YAML (fun a : Int => a)
        (.parsed (.map ⟨none, some (.integers [1, 2])⟩)) [] []).objPoints = []
      ∧ (Read_ArUco_YAML (fun a : Int => a)
        (.parsed (.map ⟨none, some (.integers [1, 2])⟩)) [] []).result = .ok true)
    ∧ (Read_ArUco_YAML (fun a : Int => a)
        (.parsed (.map ⟨some (.lists [[1, 2, 3]]), none⟩)) [] []).ids = [] :=
  have h := @C5_absent_keys Int Int (fun a : Int => a) [] []
  ⟨⟨(h.1 ⟨none, some (.integers [1, 2])⟩ rfl).1,
    (h.1 ⟨none, some (.integers [1, 2])⟩ rfl).2.1 (Or.inr ⟨[1, 2], rfl, rfl⟩)⟩,
   (h.2.1 ⟨some (.lists [[1, 2, 3]]), none⟩ rfl).1⟩

/-! ## The rotation matrix -/

/-- The three matrices of `eulerAnglesToRotationMatrix` are the right-handed
rotations about X, Y and Z, multiplied in the order Z, Y, X. -/
theorem eulerAnglesToRotationMatrix_eq {R : Type} [CommRing R] (sin cos : R → R)
    (theta : Vec3d R) :
    eulerAnglesToRotationMatrix sin cos theta
      = elementaryRotation sin cos 2 (theta 2) * elementaryRotation sin cos 1 (theta 1)
          * elementaryRotation sin cos 0 (theta 0) := by
  have hx : elementaryRotation sin cos 0 (theta 0)
      = !![1, 0, 0; 0, cos (theta 0), -sin (theta 0); 0, sin (theta 0), cos (theta 0)] := by
    ext i j
    fin_cases i <;> fin_cases j <;> simp [elementaryRotation]
    rfl
  have hy : elementaryRotation sin cos 1 (theta 1)
      = !![cos (theta 1), 0, sin (theta 1); 0, 1, 0; -sin (theta 1), 0, cos (theta 1)] := by
    ext i j
    fin_cases i <;> fin_cases j <;> simp [elementaryRotation]
  have hz : elementaryRotation sin cos 2 (theta 2)
      = !![cos (theta 2), -sin (theta 2), 0; sin (theta 2), cos (theta 2), 0; 0, 0, 1] := by
    ext i j
    fin_cases i <;> fin_cases j <;> simp [elementaryRotation]
  rw [hx, hy, hz]
  rfl

theorem elementaryRotation_transpose_mul {R : Type} [CommRing R] (sin cos : R → R)
    (hsc : ∀ a, sin a ^ 2 + cos a ^ 2 = 1) (axis : Fin 3) (a : R) :
    (elementaryRotation sin cos axis a).transpose * elementaryRotation sin cos axis a = 1 := by
  have h := hsc a
  ext i j
  fin_cases axis <;> fin_cases i <;> fin_cases j <;>
    simp [elementaryRotation, Matrix.mul_apply, Fin.sum_univ_three] <;>
    first
      | linear_combination h
      | ring

theorem elementaryRotation_det {R : Type} [CommRing R] (sin cos : R → R)
    (hsc : ∀ a, sin a ^ 2 + cos a ^ 2 = 1) (axis : Fin 3) (a : R) :
    (elementaryRotation sin cos axis a).det = 1 := by
  have h := hsc a
  rw [Matrix.det_fin_three]
  fin_cases axis <;>
    simp [elementaryRotation] <;>
    linear_combination h

/-- Whenever `sin ^ 2 + cos ^ 2 = 1`, the matrix of
`eulerAnglesToRotationMatrix` is a rotation matrix. -/
theorem eulerAnglesToRotationMatrix_rotation {R : Type} [CommRing R] (sin cos : R → R)
    (hsc : ∀ a, sin a ^ 2 + cos a ^ 2 = 1) (theta : Vec3d R) :
    (eulerAnglesToRotationMatrix sin cos theta).transpose
        * eulerAnglesToRotationMatrix sin cos theta = 1
    ∧ (eulerAnglesToRotationMatrix sin cos theta).det = 1 := by
  rw [eulerAnglesToRotationMatrix_eq]
  constructor
  · rw [Matrix.transpose_mul, Matrix.transpose_mul]
    calc _ = (elementaryRotation sin cos 0 (theta 0)).transpose
              * ((elementaryRotation sin cos 1 (theta 1)).transpose
                * ((elementaryRotation sin cos 2 (theta 2)).transpose
                    * elementaryRotation sin cos 2 (theta 2))
                * elementaryRotation sin cos 1 (theta 1))
              * elementaryRotation sin cos 0 (theta 0) := by
            simp only [Matrix.mul_assoc]
      _ = 1 := by
            rw [elementaryRotation_transpose_mul sin cos hsc, Matrix.mul_one,
              elementaryRotation_transpose_mul sin cos hsc, Matrix.mul_one,
              elementaryRotation_transpose_mul sin cos hsc]
  · rw [Matrix.det_mul, Matrix.det_mul, elementaryRotation_det sin cos hsc,
      elementaryRotation_det sin cos hsc, elementaryRotation_det sin cos hsc]
    simp

/-! ## One pass through the loop body -/

theorem extrinsicCalibration_skip {P R β : Type} [CommRing R] (cv : OpenCV P R β)
    (sin cos : R → R) (c : Camera P R β)
    (h : c.image.empty = true ∨ c.instrinsic.empty = true) :
    extrinsicCalibration cv sin cos c = (c, []) := by
  unfold extrinsicCalibration
  rcases h with h | h <;> simp [h]

theorem extrinsicCalibration_solved {P R β : Type} [CommRing R] (cv : OpenCV P R β)
    (sin cos : R → R) (c : Camera P R β)
    (himg : c.image.empty = false) (hmat : c.instrinsic.empty = false)
    (hobj : (boardObjectAndImagePoints cv c).1.isEmpty = false)
    (hpts : (boardObjectAndImagePoints cv c).2.isEmpty = false) :
    extrinsicCalibration cv sin cos c
      = ({ c with tf_ := Mat.of (eulerAnglesToRotationMatrix sin cos
            (cv.solvePnP (boardObjectAndImagePoints cv c).1 (boardObjectAndImagePoints cv c).2
              c.instrinsic).1) },
         [Call.detectMarkers, Call.solvePnP]) := by
  unfold extrinsicCalibration
  simp [himg, hmat, hobj, hpts]

theorem extrinsicCalibration_unsolved {P R β : Type} [CommRing R] (cv : OpenCV P R β)
    (sin cos : R → R) (c : Camera P R β)
    (himg : c.image.empty = false) (hmat : c.instrinsic.empty = false)
    (hnone : (boardObjectAndImagePoints cv c).1.isEmpty = true
      ∨ (boardObjectAndImagePoints cv c).2.isEmpty = true) :
    extrinsicCalibration cv sin cos c
      = ({ c with tf_ := Mat.of (eulerAnglesToRotationMatrix sin cos (fun _ => 0)) },
         [Call.detectMarkers]) := by
  unfold extrinsicCalibration
  rcases hnone with h | h <;> simp [himg, hmat, h]

/-- The solver is among the calls of a pass only when the image, the camera
matrix and both lists of points are not empty. -/
theorem solvePnP_called {P R β : Type} [CommRing R] (cv : OpenCV P R β)
    (sin cos : R → R) (c : Camera P R β)
    (hcall : Call.solvePnP ∈ (extrinsicCalibration cv sin cos c).2) :
    c.image.empty = false ∧ c.instrinsic.empty = false
      ∧ (boardObjectAndImagePoints cv c).1.isEmpty = false
      ∧ (boardObjectAndImagePoints cv c).2.isEmpty = false := by
  cases himg : c.image.empty with
  | true => rw [extrinsicCalibration_skip cv sin cos c (Or.inl himg)] at hcall; simp at hcall
  | false =>
    cases hmat : c.instrinsic.empty with
    | true => rw [extrinsicCalibration_skip cv sin cos c (Or.inr hmat)] at hcall; simp at hcall
    | false =>
      cases hobj : (boardObjectAndImagePoints cv c).1.isEmpty with
      | true =>
        rw [extrinsicCalibration_unsolved cv sin cos c himg hmat (Or.inl hobj)] at hcall
        simp at hcall
      | false =>
        cases hpts : (boardObjectAndImagePoints cv c).2.isEmpty with
        | true =>
          rw [extrinsicCalibration_unsolved cv sin cos c himg hmat (Or.inr hpts)] at hcall
          simp at hcall
        | false => exact ⟨rfl, rfl, rfl, rfl⟩

theorem eulerAnglesToRotationMatrix_zero :
    eulerAnglesToRotationMatrix Real.sin Real.cos (fun _ => 0) = 1 := by
  ext i j
  fin_cases i <;> fin_cases j <;>
    simp [eulerAnglesToRotationMatrix, Matrix.mul_apply, Fin.sum_univ_three, Matrix.vecHead,
      Matrix.vecTail]

theorem Mat.of_injective {R : Type} {m n : Nat} (M N : Matrix (Fin m) (Fin n) R)
    (h : Mat.of M = Mat.of N) : M = N := by
  simpa [Mat.of] using h

/-- C8: when the image or the camera matrix held by the camera is empty, a
pass through the loop body calls neither the detector nor the solver (it makes
no OpenCV call at all) and leaves the image, the camera matrix and the
published transform as they were. -/
theorem C8_empty_input_skips {P R β : Type} [CommRing R] (cv : OpenCV P R β)
    (sin cos : R → R) (c : Camera P R β)
    (h : c.image.empty = true ∨ c.instrinsic.empty = true) :
    (extrinsicCalibration cv sin cos c).2 = []
    ∧ Call.detectMarkers ∉ (extrinsicCalibration cv sin cos c).2
    ∧ Call.solvePnP ∉ (extrinsicCalibration cv sin cos c).2
    ∧ (extrinsicCalibration cv sin cos c).1.image = c.image
    ∧ (extrinsicCalibration cv sin cos c).1.instrinsic = c.instrinsic
    ∧ getTransformationMatrix (extrinsicCalibration cv sin cos c).1
        = getTransformationMatrix c := by
  rw [extrinsicCalibration_skip cv sin cos c h]
  simp

/-- C8, at a camera that has an image and a published transform and whose
camera matrix is still empty. -/
theorem C8_empty_input_skips_witness :
    (extrinsicCalibration (seesMarker Int 0 (fun _ => 1) (fun _ => 2)) (fun _ => 0) (fun _ => 1)
        { calibratedCamera Int with instrinsic := Mat.default }).2 = []
    ∧ getTransformationMatrix
        (extrinsicCalibration (seesMarker Int 0 (fun _ => 1) (fun _ => 2)) (fun _ => 0)
          (fun _ => 1) { calibratedCamera Int with instrinsic := Mat.default }).1
      = Mat.of (quarterTurn Int) :=
  have h := C8_empty_input_skips (seesMarker Int 0 (fun _ => 1) (fun _ => 2)) (fun _ => 0)
    (fun _ => 1) { calibratedCamera Int with instrinsic := Mat.default } (Or.inr rfl)
  ⟨h.1, h.2.2.2.2.2⟩

/-- C9: in a pass in which the solver is called and answers the rotation
vector `rvec` and the translation vector `tvec`, the transform published is
`Rz (rvec 2) * Ry (rvec 1) * Rx (rvec 0)`, the product of the right-handed
rotations about Z, Y and X with the real sine and cosine; it is the same
whatever transform was published before, and the same for a solver that
answers any other translation vectors. -/
theorem C9_published_rotation {P β : Type} (cv : OpenCV P ℝ β) (c : Camera P ℝ β)
    (rvec tvec : Vec3d ℝ)
    (hcall : Call.solvePnP ∈ (extrinsicCalibration cv Real.sin Real.cos c).2)
    (hsol : cv.solvePnP (boardObjectAndImagePoints cv c).1 (boardObjectAndImagePoints cv c).2
      c.instrinsic = (rvec, tvec)) :
    getTransformationMatrix (extrinsicCalibration cv Real.sin Real.cos c).1
      = Mat.of (elementaryRotation Real.sin Real.cos 2 (rvec 2)
          * elementaryRotation Real.sin Real.cos 1 (rvec 1)
          * elementaryRotation Real.sin Real.cos 0 (rvec 0))
    ∧ (∀ previous : Mat ℝ,
        getTransformationMatrix
            (extrinsicCalibration cv Real.sin Real.cos { c with tf_ := previous }).1
          = getTransformationMatrix (extrinsicCalibration cv Real.sin Real.cos c).1)
    ∧ (∀ other : List (Point3f β) → List (Point2f β) → Mat ℝ → Vec3d ℝ,
        getTransformationMatrix
            (extrinsicCalibration
              { cv with solvePnP := fun o i k => ((cv.solvePnP o i k).1, other o i k) }
              Real.sin Real.cos c).1
          = getTransformationMatrix (extrinsicCalibration cv Real.sin Real.cos c).1) := by
  obtain ⟨himg, hmat, hobj, hpts⟩ := solvePnP_called cv Real.sin Real.cos c hcall
  refine ⟨?_, ?_, ?_⟩
  · rw [extrinsicCalibration_solved cv Real.sin Real.cos c himg hmat hobj hpts, hsol,
      eulerAnglesToRotationMatrix_eq]
    rfl
  · intro previous
    rw [extrinsicCalibration_solved cv Real.sin Real.cos c himg hmat hobj hpts,
      extrinsicCalibration_solved cv Real.sin Real.cos { c with tf_ := previous } himg hmat
        hobj hpts]
    rfl
  · intro other
    rw [extrinsicCalibration_solved cv Real.sin Real.cos c himg hmat hobj hpts,
      extrinsicCalibration_solved
        { cv with solvePnP := fun o i k => ((cv.solvePnP o i k).1, other o i k) }
        Real.sin Real.cos c himg hmat hobj hpts]
    rfl

/-- C9, at a camera that sees marker 0 of its board, with a solver answering
the rotation vector `(1, 1, 1)` and the translation vector `(2, 2, 2)`. -/
theorem C9_published_rotation_witness :
    Call.solvePnP ∈ (extrinsicCalibration (seesMarker ℝ 0 (fun _ => 1) (fun _ => 2))
        Real.sin Real.cos (calibratedCamera ℝ)).2
    ∧ getTransformationMatrix (extrinsicCalibration (seesMarker ℝ 0 (fun _ => 1) (fun _ => 2))
        Real.sin Real.cos (calibratedCamera ℝ)).1
      = Mat.of (elementaryRotation Real.sin Real.cos 2 1
          * elementaryRotation Real.sin Real.cos 1 1
          * elementaryRotation Real.sin Real.cos 0 1) :=
  ⟨by decide, (C9_published_rotation (seesMarker ℝ 0 (fun _ => 1) (fun _ => 2))
    (calibratedCamera ℝ) (fun _ => 1) (fun _ => 2) (by decide) rfl).1⟩

/-! ## The loop over time -/

/-- A setter leaves the published transform alone, and a pass either leaves
it alone or publishes a result of `eulerAnglesToRotationMatrix`. -/
theorem extrinsicCalibration_tf {P R β : Type} [CommRing R] (cv : OpenCV P R β)
    (sin cos : R → R) (c : Camera P R β) :
    (extrinsicCalibration cv sin cos c).1.tf_ = c.tf_
      ∨ ∃ theta, (extrinsicCalibration cv sin cos c).1.tf_
          = Mat.of (eulerAnglesToRotationMatrix sin cos theta) := by
  cases himg : c.image.empty with
  | true => rw [extrinsicCalibration_skip cv sin cos c (Or.inl himg)]; exact Or.inl rfl
  | false =>
    cases hmat : c.instrinsic.empty with
    | true => rw [extrinsicCalibration_skip cv sin cos c (Or.inr hmat)]; exact Or.inl rfl
    | false =>
      cases hobj : (boardObjectAndImagePoints cv c).1.isEmpty with
      | true =>
        rw [extrinsicCalibration_unsolved cv sin cos c himg hmat (Or.inl hobj)]
        exact Or.inr ⟨_, rfl⟩
      | false =>
        cases hpts : (boardObjectAndImagePoints cv c).2.isEmpty with
        | true =>
          rw [extrinsicCalibration_unsolved cv sin cos c himg hmat (Or.inr hpts)]
          exact Or.inr ⟨_, rfl⟩
        | false =>
          rw [extrinsicCalibration_solved cv sin cos c himg hmat hobj hpts]
          exact Or.inr ⟨_, rfl⟩

/-- Over any sequence of events, a transform that is empty or a result of
`eulerAnglesToRotationMatrix` stays so. -/
theorem run_tf {P R β : Type} [CommRing R] (cv : OpenCV P R β) (sin cos : R → R)
    (events : List (Event P R)) :
    ∀ c : Camera P R β,
      (c.tf_.empty = true ∨ ∃ theta, c.tf_ = Mat.of (eulerAnglesToRotationMatrix sin cos theta)) →
      ((run cv sin cos c events).1.tf_.empty = true
        ∨ ∃ theta, (run cv sin cos c events).1.tf_
            = Mat.of (eulerAnglesToRotationMatrix sin cos theta)) := by
  induction events with
  | nil => intro c h; exact h
  | cons e es ih =>
    intro c h
    cases e with
    | setCameraImage m => exact ih (setCameraImage c m) h
    | setCameraMatrix m => exact ih (setCameraMatrix c m) h
    | pass =>
      refine ih (extrinsicCalibration cv sin cos c).1 ?_
      rcases extrinsicCalibration_tf cv sin cos c with h1 | h1
      · rw [h1]; exact h
      · exact Or.inr h1

/-- C10: for every angle triple the matrix of `eulerAnglesToRotationMatrix`,
with the real sine and cosine, has `Rᵀ * R = 1` and determinant 1; and after
any sequence of setter calls and passes through the loop body on a freshly
constructed camera, a value of `getTransformationMatrix` that is not empty is
such a matrix, of three rows and three columns. -/
theorem C10_rotation_matrix {P β : Type} :
    (∀ theta : Vec3d ℝ,
      (eulerAnglesToRotationMatrix Real.sin Real.cos theta).transpose
          * eulerAnglesToRotationMatrix Real.sin Real.cos theta = 1
      ∧ (eulerAnglesToRotationMatrix Real.sin Real.cos theta).det = 1)
    ∧ ∀ (cv : OpenCV P ℝ β) (board_config : BoardConfig β) (events : List (Event P ℝ)),
        (getTransformationMatrix
          (run cv Real.sin Real.cos (Camera.fresh board_config) events).1).empty = false →
        (getTransformationMatrix
            (run cv Real.sin Real.cos (Camera.fresh board_config) events).1).rows = 3
        ∧ (getTransformationMatrix
            (run cv Real.sin Real.cos (Camera.fresh board_config) events).1).cols = 3
        ∧ ∃ theta : Vec3d ℝ,
            getTransformationMatrix
                (run cv Real.sin Real.cos (Camera.fresh board_config) events).1
              = Mat.of (eulerAnglesToRotationMatrix Real.sin Real.cos theta) := by
  refine ⟨fun theta =>
    eulerAnglesToRotationMatrix_rotation Real.sin Real.cos Real.sin_sq_add_cos_sq theta, ?_⟩
  intro cv board_config events hne
  rcases run_tf cv Real.sin Real.cos events (Camera.fresh board_config) (Or.inl rfl)
    with h | ⟨theta, h⟩
  · unfold getTransformationMatrix at hne
    rw [h] at hne
    cases hne
  · unfold getTransformationMatrix
    rw [h]
    exact ⟨rfl, rfl, theta, rfl⟩

/-- C10, at a fresh camera that is given an image and a camera matrix and
then sees marker 0 of its board in one pass. -/
theorem C10_rotation_matrix_witness :
    (getTransformationMatrix
      (run (seesMarker ℝ 0 (fun _ => 1) (fun _ => 2)) Real.sin Real.cos
        (Camera.fresh oneMarkerBoard)
        [Event.setCameraImage image1x1, Event.setCameraMatrix (cameraMatrix ℝ),
          Event.pass]).1).empty = false
    ∧ ∃ theta : Vec3d ℝ,
        getTransformationMatrix
          (run (seesMarker ℝ 0 (fun _ => 1) (fun _ => 2)) Real.sin Real.cos
            (Camera.fresh oneMarkerBoard)
            [Event.setCameraImage image1x1, Event.setCameraMatrix (cameraMatrix ℝ),
              Event.pass]).1
          = Mat.of (eulerAnglesToRotationMatrix Real.sin Real.cos theta) :=
  ⟨rfl, (C10_rotation_matrix.2 (seesMarker ℝ 0 (fun _ => 1) (fun _ => 2)) oneMarkerBoard
    [Event.setCameraImage image1x1, Event.setCameraMatrix (cameraMatrix ℝ), Event.pass]
    rfl).2.2⟩

theorem quarterTurn_ne_one : quarterTurn ℝ ≠ 1 := by
  intro h
  have h00 := congrFun (congrFun h 0) 0
  simp [quarterTurn] at h00

/-- C2, the code at the failing input: a camera that has an image, a camera
matrix and the quarter turn about Z as published transform makes a pass in
which the detector returns no marker ID.  The pass publishes the identity
matrix, the rotation matrix of the zero vector `rvec` was constructed with, so
the published transform is not what it was before the pass.  The same happens
when the detector returns the one ID 99, which is not in the ID list of the
board, so that no pair of points is found. -/
theorem C2_no_detection_overwrites :
    ((seesNothing ℝ (fun _ => 1) (fun _ => 2)).detectMarkers (calibratedCamera ℝ).image
        (calibratedCamera ℝ).board_config_.dictionary).2 = []
    ∧ (calibratedCamera ℝ).image.empty = false
    ∧ (calibratedCamera ℝ).instrinsic.empty = false
    ∧ getTransformationMatrix (calibratedCamera ℝ) = Mat.of (quarterTurn ℝ)
    ∧ getTransformationMatrix
        (extrinsicCalibration (seesNothing ℝ (fun _ => 1) (fun _ => 2)) Real.sin Real.cos
          (calibratedCamera ℝ)).1 = Mat.of (1 : Matrix (Fin 3) (Fin 3) ℝ)
    ∧ getTransformationMatrix
        (extrinsicCalibration (seesNothing ℝ (fun _ => 1) (fun _ => 2)) Real.sin Real.cos
          (calibratedCamera ℝ)).1 ≠ getTransformationMatrix (calibratedCamera ℝ)
    ∧ ((seesMarker ℝ 99 (fun _ => 1) (fun _ => 2)).detectMarkers (calibratedCamera ℝ).image
        (calibratedCamera ℝ).board_config_.dictionary).2 = [99]
    ∧ boardObjectAndImagePoints (seesMarker ℝ 99 (fun _ => 1) (fun _ => 2)) (calibratedCamera ℝ)
        = ([], [])
    ∧ getTransformationMatrix
        (extrinsicCalibration (seesMarker ℝ 99 (fun _ => 1) (fun _ => 2)) Real.sin Real.cos
          (calibratedCamera ℝ)).1 = Mat.of (1 : Matrix (Fin 3) (Fin 3) ℝ) := by
  have h1 : getTransformationMatrix
      (extrinsicCalibration (seesNothing ℝ (fun _ => 1) (fun _ => 2)) Real.sin Real.cos
        (calibratedCamera ℝ)).1 = Mat.of (1 : Matrix (Fin 3) (Fin 3) ℝ) := by
    rw [extrinsicCalibration_unsolved (seesNothing ℝ (fun _ => 1) (fun _ => 2)) Real.sin
      Real.cos (calibratedCamera ℝ) rfl rfl (Or.inl rfl), eulerAnglesToRotationMatrix_zero]
    rfl
  have h2 : getTransformationMatrix
      (extrinsicCalibration (seesMarker ℝ 99 (fun _ => 1) (fun _ => 2)) Real.sin Real.cos
        (calibratedCamera ℝ)).1 = Mat.of (1 : Matrix (Fin 3) (Fin 3) ℝ) := by
    rw [extrinsicCalibration_unsolved (seesMarker ℝ 99 (fun _ => 1) (fun _ => 2)) Real.sin
      Real.cos (calibratedCamera ℝ) rfl rfl (Or.inl rfl), eulerAnglesToRotationMatrix_zero]
    rfl
  refine ⟨rfl, rfl, rfl, rfl, h1, ?_, rfl, rfl, h2⟩
  rw [h1]
  intro h
  exact quarterTurn_ne_one (Mat.of_injective _ _ h).symm

/-- C3, the code at the failing input: a freshly constructed camera, whose
transform is empty, is given an image and a camera matrix and makes one pass
in which the detector returns no marker ID.  The solver is not called, and
`getTransformationMatrix` returns the identity matrix of three rows and three
columns, not the empty matrix. -/
theorem C3_transform_without_solve :
    (getTransformationMatrix (Camera.fresh oneMarkerBoard : Camera Nat ℝ Int)).empty = true
    ∧ Call.solvePnP ∉
        (run (seesNothing ℝ (fun _ => 1) (fun _ => 2)) Real.sin Real.cos
          (Camera.fresh oneMarkerBoard)
          [Event.setCameraImage image1x1, Event.setCameraMatrix (cameraMatrix ℝ),
            Event.pass]).2
    ∧ (getTransformationMatrix
        (run (seesNothing ℝ (fun _ => 1) (fun _ => 2)) Real.sin Real.cos
          (Camera.fresh oneMarkerBoard)
          [Event.setCameraImage image1x1, Event.setCameraMatrix (cameraMatrix ℝ),
            Event.pass]).1).empty = false
    ∧ getTransformationMatrix
        (run (seesNothing ℝ (fun _ => 1) (fun _ => 2)) Real.sin Real.cos
          (Camera.fresh oneMarkerBoard)
          [Event.setCameraImage image1x1, Event.setCameraMatrix (cameraMatrix ℝ),
            Event.pass]).1 = Mat.of (1 : Matrix (Fin 3) (Fin 3) ℝ) := by
  refine ⟨rfl, by decide, rfl, ?_⟩
  show getTransformationMatrix
      (extrinsicCalibration (seesNothing ℝ (fun _ => 1) (fun _ => 2)) Real.sin Real.cos
        (setCameraMatrix (setCameraImage (Camera.fresh oneMarkerBoard) image1x1)
          (cameraMatrix ℝ))).1 = _
  rw [extrinsicCalibration_unsolved (seesNothing ℝ (fun _ => 1) (fun _ => 2)) Real.sin
    Real.cos (setCameraMatrix (setCameraImage (Camera.fresh oneMarkerBoard) image1x1)
      (cameraMatrix ℝ)) rfl rfl (Or.inl rfl), eulerAnglesToRotationMatrix_zero]
  rfl

end ArucoCalib
